import Mathlib

/-!
Verification development for the eml2txt repository (src/eml2txt.py, the
v3.0.0 variant, with src/__main__.py v1.0.1r noted where it differs).

The Python code is shallowly embedded as pure Lean functions:
- bytes are lists of naturals below 256;
- Python exceptions (LookupError from codec lookup, ParserError from
  dateutil) are modelled with Except;
- the external collaborators (the stdlib MIME parser, the stdlib
  encoded-word splitter decode_header, the codec registry, dateutil)
  are modelled at the interface the source consumes, as documented on
  each definition.
-/

deriving instance DecidableEq for Except

namespace Eml2Txt

/-- A byte of a payload or of an encoded header fragment (0 ≤ b < 256 for
inputs arising from real messages). -/
abbrev Byte := Nat

/-- The Unicode replacement character U+FFFD produced by Python's
errors="replace" decoding policy. -/
def replacementChar : Char := Char.ofNat 0xFFFD

/-- Whether a byte is a UTF-8 continuation byte (0x80–0xBF). -/
def isContByte (b : Byte) : Bool := 0x80 ≤ b && b < 0xC0

/-- One step of UTF-8 decoding with the errors="replace" policy of
CPython, given the lead byte and the remaining bytes: the decoded
character (U+FFFD for the start of an invalid sequence) and how many of
the remaining bytes the sequence consumed.  Every maximal invalid
subsequence becomes one U+FFFD.  Overlong encodings (leads 0xC0/0xC1,
0xE0 with a second byte below 0xA0, 0xF0 with a second byte below 0x90),
surrogate encodings (0xED with a second byte of 0xA0 or above) and values
above U+10FFFF (leads above 0xF4, 0xF4 with a second byte of 0x90 or
above) are invalid. -/
def utf8Step (b : Byte) (rest : List Byte) : Char × Nat :=
  if b < 0x80 then (Char.ofNat b, 0)
  else if b < 0xC2 then (replacementChar, 0)
  else if b < 0xE0 then
    match rest with
    | b2 :: _ =>
      if isContByte b2 then (Char.ofNat ((b - 0xC0) * 64 + (b2 - 0x80)), 1)
      else (replacementChar, 0)
    | [] => (replacementChar, 0)
  else if b < 0xF0 then
    match rest with
    | b2 :: r2 =>
      if isContByte b2 && (b ≠ 0xE0 || 0xA0 ≤ b2) && (b ≠ 0xED || b2 < 0xA0) then
        match r2 with
        | b3 :: _ =>
          if isContByte b3 then
            (Char.ofNat ((b - 0xE0) * 4096 + (b2 - 0x80) * 64 + (b3 - 0x80)), 2)
          else (replacementChar, 1)
        | [] => (replacementChar, 1)
      else (replacementChar, 0)
    | [] => (replacementChar, 0)
  else if b < 0xF5 then
    match rest with
    | b2 :: r2 =>
      if isContByte b2 && (b ≠ 0xF0 || 0x90 ≤ b2) && (b ≠ 0xF4 || b2 < 0x90) then
        match r2 with
        | b3 :: r3 =>
          if isContByte b3 then
            match r3 with
            | b4 :: _ =>
              if isContByte b4 then
                (Char.ofNat ((b - 0xF0) * 262144 + (b2 - 0x80) * 4096 +
                  (b3 - 0x80) * 64 + (b4 - 0x80)), 3)
              else (replacementChar, 2)
            | [] => (replacementChar, 2)
          else (replacementChar, 1)
        | [] => (replacementChar, 1)
      else (replacementChar, 0)
    | [] => (replacementChar, 0)
  else (replacementChar, 0)

/-- UTF-8 decoding with the errors="replace" policy, over a byte list:
decode one sequence, skip the consumed bytes, continue.  The fuel
argument bounds the number of decoded sequences; since every sequence
consumes at least its lead byte, fuel equal to the list length always
suffices. -/
def utf8Aux : Nat → List Byte → List Char
  | 0, _ => []
  | _, [] => []
  | fuel + 1, b :: rest =>
    (utf8Step b rest).1 :: utf8Aux fuel (rest.drop (utf8Step b rest).2)

/-- Decoding bytes as UTF-8 under errors="replace": total. -/
def utf8DecodeReplace (bs : List Byte) : String := String.mk (utf8Aux bs.length bs)

/-- Decoding bytes as latin-1 (iso-8859-1): every byte maps directly to the
code point of the same value, so decoding is total and never needs
replacement. -/
def latin1Decode (bs : List Byte) : String :=
  String.mk (bs.map (fun b => Char.ofNat (b % 256)))

/-- Decoding bytes as US-ASCII under errors="replace": bytes 0x80 and above
are undecodable and each becomes U+FFFD. -/
def asciiDecodeReplace (bs : List Byte) : String :=
  String.mk (bs.map (fun b => if b < 0x80 then Char.ofNat b else replacementChar))

/-- Model of CPython's encodings.normalize_encoding as far as the labels in
this development need: lowercase (ASCII) and map separators to
underscores, character by character. -/
def normalizeEncodingName (s : String) : String :=
  String.mk (s.data.map (fun c => if c = '-' || c = ' ' then '_' else c.toLower))

/-- The registered codecs modelled from the CPython registry. -/
inductive Codec where
  | utf8
  | latin1
  | ascii
  deriving DecidableEq, Repr

/-- The replacement-mode (errors="replace") decoder of each registered
codec. -/
def applyCodec : Codec → List Byte → String
  | Codec.utf8 => utf8DecodeReplace
  | Codec.latin1 => latin1Decode
  | Codec.ascii => asciiDecodeReplace

/-- Model of the CPython codec registry consulted by bytes.decode,
restricted to representative registered codecs (the UTF-8, latin-1 and
ASCII families with their aliases).  A label outside the registry has no
codec: bytes.decode raises LookupError for it, and errors="replace" does
not prevent that (the errors argument only governs undecodable data under
a registered codec).  For example "invalid-charset-name" is not a
registered codec in CPython and is absent here. -/
def codecLookup (name : String) : Option Codec :=
  let n := normalizeEncodingName name
  if n = "utf_8" || n = "utf8" || n = "u8" || n = "utf" || n = "cp65001" then
    some Codec.utf8
  else if n = "latin_1" || n = "latin1" || n = "latin" || n = "l1" ||
      n = "iso_8859_1" || n = "iso8859_1" || n = "8859" || n = "cp819" then
    some Codec.latin1
  else if n = "ascii" || n = "us_ascii" || n = "646" then
    some Codec.ascii
  else none

/-- The Python exceptions that can escape the embedded code: LookupError
from a codec lookup on an unknown encoding name, and dateutil's
ParserError on an unparseable date string. -/
inductive PyError where
  | lookupError (encoding : String)
  | parserError (text : String)
  deriving DecidableEq, Repr

/-- Embedding of the Python expression data.decode(encoding,
errors="replace"): substitution decoding, total for every registered
codec; LookupError when the encoding names no registered codec. -/
def pyBytesDecodeReplace (encoding : String) (data : List Byte) : Except PyError String :=
  match codecLookup encoding with
  | some c => Except.ok (applyCodec c data)
  | none => Except.error (PyError.lookupError encoding)

/-- One fragment of the list returned by email.header.decode_header (the
stdlib encoded-word splitter, an external collaborator): a str fragment
(no decode attribute, appended verbatim by the source) or a bytes
fragment tagged with an optional character-set label. -/
inductive Fragment where
  | plain (s : String)
  | encoded (data : List Byte) (charset : Option String)
  deriving DecidableEq, Repr

/-- Embedding of the Python expression (encoding if encoding else "UTF-8")
in MailParser._get_decoded_header: a missing or empty (falsy) label
defaults to UTF-8. -/
def effectiveEncoding : Option String → String
  | none => "UTF-8"
  | some e => if e = "" then "UTF-8" else e

/-- One MIME part as the stdlib parser exposes it to the source (spec §6):
maintype is get_content_maintype(), charset is get_content_charset()
(none when no character set is declared), filename is get_filename()
(none when no filename is declared; the empty string when a filename is
declared but empty), payload is get_payload(decode=True), the
content-transfer-decoded raw bytes. -/
structure PartData where
  maintype : String
  charset : Option String
  filename : Option String
  payload : List Byte
  deriving DecidableEq, Repr

/-- The MIME part tree produced by the external parser: each part carries
its data and its subparts (leaves have no subparts). -/
inductive Part where
  | node (data : PartData) (children : List Part)

mutual
/-- Embedding of email.message.Message.walk(): depth-first document-order
traversal yielding the part itself and then, recursively, each subpart. -/
def Part.walk : Part → List PartData
  | Part.node d children => d :: Part.walkList children

/-- walk, mapped over a list of sibling subtrees in document order. -/
def Part.walkList : List Part → List PartData
  | [] => []
  | p :: ps => Part.walk p ++ Part.walkList ps
end

mutual
/-- The number of parts of a tree (the root and all nested subparts). -/
def Part.size : Part → Nat
  | Part.node _ children => 1 + Part.sizeList children

/-- Total number of parts of a list of sibling subtrees. -/
def Part.sizeList : List Part → Nat
  | [] => 0
  | p :: ps => Part.size p + Part.sizeList ps
end

/-- An entry of attach_file_list: the declared filename and the
content-transfer-decoded raw payload bytes. -/
structure Attachment where
  name : String
  data : List Byte
  deriving DecidableEq, Repr

/-- Python truthiness of the value returned by get_filename(): None and
the empty string are falsy (the source tests "if not attach_fname"). -/
def pyFalsyStr : Option String → Bool
  | none => true
  | some s => s = ""

/-- Embedding of the body loop of MailParser._parse over the walk list:
a part of maintype "multipart" is skipped; otherwise, with a falsy
filename, a truthy declared charset triggers decoding of the payload with
errors="replace" and appending to body (no declared or an empty charset
contributes nothing); with a truthy filename the part is appended to
attach_file_list.  A LookupError from decoding propagates, aborting the
fold, exactly as the Python exception aborts _parse. -/
def partsFold : List PartData → String → List Attachment → Except PyError (String × List Attachment)
  | [], body, atts => Except.ok (body, atts)
  | d :: rest, body, atts =>
    if d.maintype = "multipart" then partsFold rest body atts
    else if pyFalsyStr d.filename then
      match d.charset with
      | none => partsFold rest body atts
      | some charset =>
        if charset = "" then partsFold rest body atts
        else
          match pyBytesDecodeReplace charset d.payload with
          | Except.ok txt => partsFold rest (body ++ txt) atts
          | Except.error e => Except.error e
    else partsFold rest body (atts ++ [⟨d.filename.getD "", d.payload⟩])

/-- The parsed message as exposed by email.message_from_bytes (spec §6):
the header list in file order (names looked up case-insensitively), each
raw header value represented by the fragment list decode_header returns
for it, and the root of the MIME part tree. -/
structure EmailMessage where
  headers : List (String × List Fragment)
  root : Part

/-- ASCII lowercasing of a header name, character by character (header
names in internet mail are ASCII). -/
def lowerName (s : String) : String := String.mk (s.data.map Char.toLower)

/-- Embedding of email.message.Message.get(name): case-insensitive lookup
of the first header with the given name; none when absent. -/
def msgGet (msg : EmailMessage) (name : String) : Option (List Fragment) :=
  (msg.headers.find? (fun kv => lowerName kv.1 = lowerName name)).map Prod.snd

/-- Embedding of the fragment loop of MailParser._get_decoded_header,
with the accumulated ret string made explicit: a str fragment is appended
verbatim; a bytes fragment is decoded with errors="replace" under its
label (UTF-8 when the label is absent or empty) and appended.  A
LookupError from decoding propagates. -/
def decodeFragments : List Fragment → String → Except PyError String
  | [], ret => Except.ok ret
  | Fragment.plain s :: rest, ret => decodeFragments rest (ret ++ s)
  | Fragment.encoded data enc :: rest, ret =>
    match pyBytesDecodeReplace (effectiveEncoding enc) data with
    | Except.ok s => decodeFragments rest (ret ++ s)
    | Except.error e => Except.error e

/-- Embedding of MailParser._get_decoded_header: the empty string for an
absent header, otherwise the concatenation of the decoded fragments. -/
def getDecodedHeader (msg : EmailMessage) (keyName : String) : Except PyError String :=
  match msgGet msg keyName with
  | none => Except.ok ""
  | some frags => decodeFragments frags ""

/-- Month-name table of the modelled date parser. -/
def monthNum : String → Option Nat
  | "Jan" => some 1
  | "Feb" => some 2
  | "Mar" => some 3
  | "Apr" => some 4
  | "May" => some 5
  | "Jun" => some 6
  | "Jul" => some 7
  | "Aug" => some 8
  | "Sep" => some 9
  | "Oct" => some 10
  | "Nov" => some 11
  | "Dec" => some 12
  | _ => none

/-- Two-digit zero-padded rendering of a number below 100. -/
def pad2 (n : Nat) : String := if n < 10 then "0" ++ toString n else toString n

/-- Split a character list at every occurrence of a separator character,
keeping empty pieces, like Python str.split with a one-character
separator. -/
def splitCharsAux (sep : Char) : List Char → List Char → List (List Char)
  | [], acc => [acc.reverse]
  | c :: rest, acc =>
    if c = sep then acc.reverse :: splitCharsAux sep rest []
    else splitCharsAux sep rest (c :: acc)

/-- Split a string at every occurrence of a one-character separator. -/
def splitOnChar (sep : Char) (s : String) : List String :=
  (splitCharsAux sep s.data []).map String.mk

/-- Parse a non-empty all-digit string as a number. -/
def toNatDigits (s : String) : Option Nat :=
  if s.data ≠ [] ∧ s.data.all Char.isDigit then
    some (s.data.foldl (fun n c => n * 10 + (c.toNat - 48)) 0)
  else none

/-- Parse an HH:MM:SS time token of the modelled date parser. -/
def parseTime (t : String) : Option (Nat × Nat × Nat) :=
  match splitOnChar ':' t with
  | [h, m, s] =>
    match toNatDigits h, toNatDigits m, toNatDigits s with
    | some hh, some mm, some ss =>
      if hh < 24 && mm < 60 && ss < 60 then some (hh, mm, ss) else none
    | _, _, _ => none
  | _ => none

/-- Parse a numeric timezone token such as "+0900" into the isoformat
suffix "+09:00". -/
def parseTz (tz : String) : Option String :=
  match tz.data with
  | [sign, h1, h2, m1, m2] =>
    if (sign = '+' || sign = '-') && h1.isDigit && h2.isDigit &&
        m1.isDigit && m2.isDigit then
      some (String.mk [sign, h1, h2, ':', m1, m2])
    else none
  | _ => none

/-- Model of the external collaborator dateutil.parser.parse(s).isoformat()
as the source uses it: defined on the day month-name year time [numeric
timezone] shapes exercised in this development, rendering the ISO-8601
timestamp dateutil would produce.  Returns none exactly where dateutil
raises ParserError: on every string outside the modelled shapes, and in
particular on the empty string, which dateutil always rejects (an absent
Date header reaches this call as the empty string). -/
def dateutilParseIso (s : String) : Option String :=
  let core := fun (d mon y t : String) =>
    match toNatDigits d, monthNum mon, toNatDigits y, parseTime t with
    | some dd, some mm, some yy, some (hh, mi, ss) =>
      if 1 ≤ dd && dd ≤ 31 && 1000 ≤ yy && yy ≤ 9999 then
        some (toString yy ++ "-" ++ pad2 mm ++ "-" ++ pad2 dd ++ "T" ++
          pad2 hh ++ ":" ++ pad2 mi ++ ":" ++ pad2 ss)
      else none
    | _, _, _, _ => none
  match (splitOnChar ' ' s).filter (fun tok => tok ≠ "") with
  | [d, mon, y, t] => core d mon y t
  | [d, mon, y, t, tz] =>
    match core d mon y t, parseTz tz with
    | some iso, some tzs => some (iso ++ tzs)
    | _, _ => none
  | _ => none

/-- The fields of a fully constructed MailParser (spec §3 ParsedMessage):
populated by _parse at the end of construction. -/
structure ParsedMessage where
  subject : String
  to_address : String
  cc_address : String
  from_address : String
  date : String
  body : String
  attach_file_list : List Attachment
  deriving DecidableEq, Repr

/-- Embedding of MailParser._parse (the v3.0.0 variant; v1.0.1r differs
only in the dateutil flags, which the date model abstracts): the four
header fields are decoded in source order, then the Date header is
decoded and parsed — a ParserError on an absent (empty-string) or
unparseable date propagates, as does a LookupError from any decode — and
finally the walk loop accumulates body and attach_file_list. -/
def mailParse (msg : EmailMessage) : Except PyError ParsedMessage :=
  match getDecodedHeader msg "Subject" with
  | Except.error e => Except.error e
  | Except.ok subject =>
  match getDecodedHeader msg "To" with
  | Except.error e => Except.error e
  | Except.ok to_address =>
  match getDecodedHeader msg "Cc" with
  | Except.error e => Except.error e
  | Except.ok cc_address =>
  match getDecodedHeader msg "From" with
  | Except.error e => Except.error e
  | Except.ok from_address =>
  match getDecodedHeader msg "Date" with
  | Except.error e => Except.error e
  | Except.ok dateRaw =>
  match dateutilParseIso dateRaw with
  | none => Except.error (PyError.parserError dateRaw)
  | some date =>
  match partsFold (Part.walk msg.root) "" [] with
  | Except.error e => Except.error e
  | Except.ok folded =>
    Except.ok
      { subject := subject, to_address := to_address, cc_address := cc_address,
        from_address := from_address, date := date,
        body := folded.1, attach_file_list := folded.2 }

/-- Embedding of the Python expression ",".join(names): the names in
order, separated by single commas. -/
def commaJoin : List String → String
  | [] => ""
  | [s] => s
  | s :: rest => s ++ "," ++ commaJoin rest

/-- Embedding of MailParser.get_attr_data: the fixed-layout report. -/
def get_attr_data (p : ParsedMessage) : String :=
  "DATE: " ++ p.date ++ "\nFROM: " ++ p.from_address ++ "\nTO: " ++
  p.to_address ++ "\nCC: " ++ p.cc_address ++
  "\n-----------------------\nSUBJECT: " ++ p.subject ++ "\nBODY:\n" ++
  p.body ++ "\n-----------------------\nATTACH_FILE_NAME:\n" ++
  commaJoin (p.attach_file_list.map Attachment.name) ++ "\n"

/-- The characters removed by the invalid_str pattern of dump2txt:
backslash, slash, colon, asterisk, question mark, double quote, less
than, greater than, vertical bar. -/
def invalidFilenameChars : List Char :=
  ['\\', '/', ':', '*', '?', '\x22', '<', '>', '|']

/-- Embedding of re.sub(invalid_str, "", s): every occurrence of a
filesystem-invalid character is removed, all other characters are kept
in order. -/
def sanitize (s : String) : String :=
  String.mk (s.data.filter (fun c => c ∉ invalidFilenameChars))

/-- Embedding of the Python slice date[:-6] (dropping a "+09:00"-sized
suffix): all but the last six characters; empty when the string is that
short. -/
def dropRight6 (s : String) : String :=
  String.mk (s.data.take (s.data.length - 6))

/-- Embedding of the Python expression .replace("-", ""): removal of
every hyphen. -/
def removeHyphens (s : String) : String :=
  String.mk (s.data.filter (fun c => c ≠ '-'))

/-- The name of the per-file output written by dump2txt (v3.0.0): the
sanitized compacted date (the isoformat date with its final 6 characters
dropped and the hyphens removed, then sanitized), an underscore, the
sanitized subject, and the .txt extension.  (The v1.0.1r variant omits
the date prefix.) -/
def outFileName (p : ParsedMessage) : String :=
  let subject := sanitize p.subject
  let title_date := removeHyphens (dropRight6 p.date)
  let date := sanitize title_date
  date ++ "_" ++ subject ++ ".txt"

/-- One file written by the batch driver. -/
structure OutFile where
  name : String
  content : String
  deriving DecidableEq, Repr

/-- Outcome of the dump2txt batch: done with the written per-file outputs,
or stopped at a failing file.  In the source (v3.0.0) the try/except
wraps the entire for loop, so the first exception leaves the loop, the
except clause appends a line to the eml2ext_error.txt sink and the
function returns; the sink content (error text, filename, and fields of
the previously constructed parser — a NameError when none exists) is
abstracted to the failing filename and error, since no claim depends on
it.  In v1.0.1r there is no try at all and the exception propagates; in
both variants no later file is processed. -/
inductive DumpResult where
  | done (written : List OutFile)
  | failedAt (written : List OutFile) (failedFile : String) (e : PyError)
  deriving DecidableEq, Repr

/-- Embedding of the loop of MailParser.dump2txt (v3.0.0) over the batch,
with the filesystem modelled as the association of each argument filename
to the message parsed from that file's bytes: files are processed
strictly in argument order; each success writes its report; the first
failure ends the batch. -/
def dump2txtGo : List (String × EmailMessage) → List OutFile → DumpResult
  | [], written => DumpResult.done written
  | (filename, msg) :: rest, written =>
    match mailParse msg with
    | Except.ok p => dump2txtGo rest (written ++ [⟨outFileName p, get_attr_data p⟩])
    | Except.error e => DumpResult.failedAt written filename e

/-- Embedding of MailParser.dump2txt (v3.0.0): the batch loop started with
no file written yet. -/
def dump2txt (files : List (String × EmailMessage)) : DumpResult :=
  dump2txtGo files []

/-- Whether a fragment's effective character-set label names a registered
codec: the condition under which the source's decode of the fragment
cannot raise (a str fragment never decodes, so it always qualifies). -/
def fragOkB : Fragment → Bool
  | Fragment.plain _ => true
  | Fragment.encoded _ enc => (codecLookup (effectiveEncoding enc)).isSome

/-- The decoded text of a single header fragment: a str fragment is taken
verbatim, a bytes fragment is decoded with errors="replace" under its
effective label (the empty string stands in for an unregistered label,
where the source raises instead). -/
def fragmentDecoded : Fragment → String
  | Fragment.plain s => s
  | Fragment.encoded data enc =>
    match codecLookup (effectiveEncoding enc) with
    | some c => applyCodec c data
    | none => ""

/-- Concatenation of a list of strings in order with no separator. -/
def concatStrings : List String → String
  | [] => ""
  | s :: rest => s ++ concatStrings rest

/-- The text a single walked part contributes to body: nothing for
multipart containers, attachment leaves, and leaves without a truthy
declared charset; the replacement-decoded payload for text leaves (the
empty string stands in for an unregistered charset, where the source
raises instead). -/
def bodyContrib (d : PartData) : String :=
  if d.maintype = "multipart" then ""
  else if pyFalsyStr d.filename then
    match d.charset with
    | none => ""
    | some charset =>
      if charset = "" then ""
      else
        match codecLookup charset with
        | some c => applyCodec c d.payload
        | none => ""
  else ""

/-- The attachment a single walked part contributes, if any: only
non-multipart parts with a truthy filename contribute one. -/
def attContrib (d : PartData) : Option Attachment :=
  if d.maintype = "multipart" then none
  else if pyFalsyStr d.filename then none
  else some ⟨d.filename.getD "", d.payload⟩

/-- Example data: a text/plain leaf with UTF-8 charset and payload
"Hi" (bytes 72 105). -/
def exTextPart : PartData := ⟨"text", some "utf-8", none, [72, 105]⟩

/-- Example data: a single-part tree holding just the text leaf. -/
def exRoot : Part := Part.node exTextPart []

/-- Example data: an attachment leaf named report.pdf with payload
bytes 1 2. -/
def exAttachPart : PartData := ⟨"application", none, some "report.pdf", [1, 2]⟩

/-- Example data: a multipart tree with a text leaf and then an
attachment leaf, in document order. -/
def exTree : Part :=
  Part.node ⟨"multipart", none, none, []⟩
    [Part.node exTextPart [], Part.node exAttachPart []]

/-- Example data: a message carrying only a parseable Date header over
the single text leaf. -/
def exMsgDateOnly : EmailMessage :=
  ⟨[("Date", [Fragment.plain "2 Jan 2024 03:04:05"])], exRoot⟩

/-- Example data: a message with no headers at all — in particular no
Date header, so the decoded date string is empty. -/
def exMsgNoDate : EmailMessage := ⟨[], exRoot⟩

/-- Example data: a message whose Date header holds no recognizable
date. -/
def exMsgBadDate : EmailMessage :=
  ⟨[("Date", [Fragment.plain "not a date"])], exRoot⟩

/-- Example data: a message whose Subject decodes from three fragments —
a plain one, an untagged bytes one (UTF-8 default) and a latin-1 one. -/
def exMsgFrag : EmailMessage :=
  ⟨[("Subject", [Fragment.plain "He", Fragment.encoded [0x6C, 0x6C] none,
      Fragment.encoded [0xE9] (some "iso-8859-1")])], exRoot⟩

/-- Example data: a message whose Subject is one bytes fragment tagged
with an empty character-set label. -/
def exMsgEmptyLabel : EmailMessage :=
  ⟨[("Subject", [Fragment.encoded [0x48, 0x69] (some "")])], exRoot⟩

/-- Example data: a message whose Subject is tagged with a label that
names no registered codec. -/
def exMsgBadCharset : EmailMessage :=
  ⟨[("Subject", [Fragment.encoded [65] (some "invalid-charset-name")])], exRoot⟩

/-- Example data: a message whose Date header specifies day, month and
time but no year — the shape dateutil completes from the current clock
date. -/
def exMsgYearless : EmailMessage :=
  ⟨[("Date", [Fragment.plain "5 Jan 03:04:05"])], exRoot⟩

/-- Model of the external collaborator dateutil.parser.parse(s).isoformat()
with its hidden input made explicit: dateutil fills date components the
string leaves unspecified from the default datetime, which _parse leaves
at datetime.now() — the construction-time clock.  todayYear is that
clock's year.  A day month-name time string with no year parses to the
clock year's date (clock-dependent); the fully specified shapes parse
exactly as the clock-free model dateutilParseIso, which this definition
repairs for the determinism analysis; everything else is none
(ParserError). -/
def dateutilParseIsoAt (todayYear : Nat) (s : String) : Option String :=
  match (splitOnChar ' ' s).filter (fun tok => tok ≠ "") with
  | [d, mon, t] =>
    match toNatDigits d, monthNum mon, parseTime t with
    | some dd, some mm, some (hh, mi, ss) =>
      if 1 ≤ dd && dd ≤ 31 && 1000 ≤ todayYear && todayYear ≤ 9999 then
        some (toString todayYear ++ "-" ++ pad2 mm ++ "-" ++ pad2 dd ++ "T" ++
          pad2 hh ++ ":" ++ pad2 mi ++ ":" ++ pad2 ss)
      else none
    | _, _, _ => none
  | _ => dateutilParseIso s

/-- Embedding of MailParser._parse with the construction-time clock date
(the hidden default dateutil consults for unspecified date components)
made an explicit input: identical to mailParse except that the Date
header is parsed by the clock-aware date model. -/
def mailParseAt (todayYear : Nat) (msg : EmailMessage) : Except PyError ParsedMessage :=
  match getDecodedHeader msg "Subject" with
  | Except.error e => Except.error e
  | Except.ok subject =>
  match getDecodedHeader msg "To" with
  | Except.error e => Except.error e
  | Except.ok to_address =>
  match getDecodedHeader msg "Cc" with
  | Except.error e => Except.error e
  | Except.ok cc_address =>
  match getDecodedHeader msg "From" with
  | Except.error e => Except.error e
  | Except.ok from_address =>
  match getDecodedHeader msg "Date" with
  | Except.error e => Except.error e
  | Except.ok dateRaw =>
  match dateutilParseIsoAt todayYear dateRaw with
  | none => Except.error (PyError.parserError dateRaw)
  | some date =>
  match partsFold (Part.walk msg.root) "" [] with
  | Except.error e => Except.error e
  | Except.ok folded =>
    Except.ok
      { subject := subject, to_address := to_address, cc_address := cc_address,
        from_address := from_address, date := date,
        body := folded.1, attach_file_list := folded.2 }

/-- A fragment list all of whose effective labels name registered codecs
decodes without failure to the separator-free concatenation of the
individually decoded fragments, appended to the accumulator. -/
theorem decodeFragments_ok (frags : List Fragment)
    (hok : ∀ f ∈ frags, fragOkB f = true) (ret : String) :
    decodeFragments frags ret =
      Except.ok (ret ++ concatStrings (frags.map fragmentDecoded)) := by
  induction frags generalizing ret with
  | nil => simp [decodeFragments, concatStrings]
  | cons f rest ih =>
    have hf := hok f (List.mem_cons_self f rest)
    have hrest : ∀ g ∈ rest, fragOkB g = true :=
      fun g hg => hok g (List.mem_cons_of_mem f hg)
    cases f with
    | plain s =>
      simp [decodeFragments, ih hrest, fragmentDecoded, concatStrings,
        String.append_assoc]
    | encoded data enc =>
      cases hcl : codecLookup (effectiveEncoding enc) with
      | none => simp [fragOkB, hcl] at hf
      | some c =>
        simp [decodeFragments, pyBytesDecodeReplace, hcl, ih hrest,
          fragmentDecoded, concatStrings, String.append_assoc]

/-- The fold step on a multipart container changes nothing. -/
theorem partsFold_cons_multipart (d : PartData) (rest : List PartData)
    (body : String) (atts : List Attachment) (hm : d.maintype = "multipart") :
    partsFold (d :: rest) body atts = partsFold rest body atts := by
  simp [partsFold, hm]

/-- The fold step on a non-container with a truthy filename appends the
attachment and leaves body alone. -/
theorem partsFold_cons_attach (d : PartData) (rest : List PartData)
    (body : String) (atts : List Attachment)
    (hm : d.maintype ≠ "multipart") (hfal : pyFalsyStr d.filename = false) :
    partsFold (d :: rest) body atts =
      partsFold rest body (atts ++ [⟨d.filename.getD "", d.payload⟩]) := by
  simp [partsFold, hm, hfal]

/-- The fold step on a filename-less leaf with no declared charset
changes nothing. -/
theorem partsFold_cons_nocs (d : PartData) (rest : List PartData)
    (body : String) (atts : List Attachment)
    (hm : d.maintype ≠ "multipart") (hfal : pyFalsyStr d.filename = true)
    (hcs : d.charset = none) :
    partsFold (d :: rest) body atts = partsFold rest body atts := by
  simp [partsFold, hm, hfal, hcs]

/-- The fold step on a filename-less leaf with an empty (falsy) declared
charset changes nothing. -/
theorem partsFold_cons_emptycs (d : PartData) (rest : List PartData)
    (body : String) (atts : List Attachment)
    (hm : d.maintype ≠ "multipart") (hfal : pyFalsyStr d.filename = true)
    (hcs : d.charset = some "") :
    partsFold (d :: rest) body atts = partsFold rest body atts := by
  simp [partsFold, hm, hfal, hcs]

/-- The fold step on a filename-less leaf with a registered non-empty
charset appends the replacement-decoded payload to body. -/
theorem partsFold_cons_decode (d : PartData) (rest : List PartData)
    (body : String) (atts : List Attachment) (charset : String)
    (c : Codec)
    (hm : d.maintype ≠ "multipart") (hfal : pyFalsyStr d.filename = true)
    (hcs : d.charset = some charset) (hce : charset ≠ "")
    (hcl : codecLookup charset = some c) :
    partsFold (d :: rest) body atts =
      partsFold rest (body ++ applyCodec c d.payload) atts := by
  simp [partsFold, hm, hfal, hcs, hce, pyBytesDecodeReplace, hcl]

/-- The fold step on a filename-less leaf whose non-empty charset names
no registered codec raises LookupError, aborting the fold. -/
theorem partsFold_cons_decode_fail (d : PartData) (rest : List PartData)
    (body : String) (atts : List Attachment) (charset : String)
    (hm : d.maintype ≠ "multipart") (hfal : pyFalsyStr d.filename = true)
    (hcs : d.charset = some charset) (hce : charset ≠ "")
    (hcl : codecLookup charset = none) :
    partsFold (d :: rest) body atts =
      Except.error (PyError.lookupError charset) := by
  simp [partsFold, hm, hfal, hcs, hce, pyBytesDecodeReplace, hcl]

/-- When the body fold over a list of walked parts succeeds, the body is
the accumulator followed by the in-order concatenation of the per-part
body contributions, and the attachment list is the accumulator followed
by the in-order per-part attachment contributions. -/
theorem partsFold_inv (ds : List PartData) :
    ∀ (body : String) (atts : List Attachment) (b : String) (a : List Attachment),
    partsFold ds body atts = Except.ok (b, a) →
    b = body ++ concatStrings (ds.map bodyContrib) ∧
    a = atts ++ ds.filterMap attContrib := by
  induction ds with
  | nil =>
    intro body atts b a h
    simp only [partsFold, Except.ok.injEq, Prod.mk.injEq] at h
    simp [concatStrings, ← h.1, ← h.2]
  | cons d rest ih =>
    intro body atts b a h
    by_cases hm : d.maintype = "multipart"
    · rw [partsFold_cons_multipart d rest body atts hm] at h
      obtain ⟨hb, ha⟩ := ih _ _ _ _ h
      refine ⟨?_, ?_⟩
      · rw [hb]; simp [bodyContrib, hm, concatStrings]
      · rw [ha]; simp [attContrib, hm]
    · cases hfal : pyFalsyStr d.filename with
      | false =>
        rw [partsFold_cons_attach d rest body atts hm hfal] at h
        obtain ⟨hb, ha⟩ := ih _ _ _ _ h
        refine ⟨?_, ?_⟩
        · rw [hb]; simp [bodyContrib, hm, hfal, concatStrings]
        · rw [ha]
          simp [attContrib, hm, hfal, List.filterMap_cons, List.append_assoc,
            List.cons_append, List.singleton_append]
      | true =>
        cases hcs : d.charset with
        | none =>
          rw [partsFold_cons_nocs d rest body atts hm hfal hcs] at h
          obtain ⟨hb, ha⟩ := ih _ _ _ _ h
          refine ⟨?_, ?_⟩
          · rw [hb]; simp [bodyContrib, hm, hfal, hcs, concatStrings]
          · rw [ha]; simp [attContrib, hm, hfal]
        | some charset =>
          by_cases hce : charset = ""
          · subst hce
            rw [partsFold_cons_emptycs d rest body atts hm hfal hcs] at h
            obtain ⟨hb, ha⟩ := ih _ _ _ _ h
            refine ⟨?_, ?_⟩
            · rw [hb]; simp [bodyContrib, hm, hfal, hcs, concatStrings]
            · rw [ha]; simp [attContrib, hm, hfal]
          · cases hcl : codecLookup charset with
            | none =>
              rw [partsFold_cons_decode_fail d rest body atts charset hm hfal hcs hce hcl] at h
              simp at h
            | some c =>
              rw [partsFold_cons_decode d rest body atts charset c hm hfal hcs hce hcl] at h
              obtain ⟨hb, ha⟩ := ih _ _ _ _ h
              refine ⟨?_, ?_⟩
              · rw [hb]
                simp [bodyContrib, hm, hfal, hcs, hce, hcl, concatStrings,
                  String.append_assoc]
              · rw [ha]; simp [attContrib, hm, hfal]

mutual
/-- The walk of a tree lists exactly as many parts as the tree holds:
each part is visited exactly once. -/
theorem walk_length : ∀ p : Part, (Part.walk p).length = Part.size p
  | Part.node d children => by
    simp [Part.walk, Part.size, walkList_length children]
    omega

/-- The walk of a sibling list visits each part of each subtree once. -/
theorem walkList_length : ∀ ps : List Part, (Part.walkList ps).length = Part.sizeList ps
  | [] => by simp [Part.walkList, Part.sizeList]
  | p :: ps => by
    simp [Part.walkList, Part.sizeList, walk_length p, walkList_length ps]
end

/-- Inversion of a successful construction: each address field equals the
successfully decoded corresponding header. -/
theorem mailParse_ok_fields (msg : EmailMessage) (p : ParsedMessage)
    (h : mailParse msg = Except.ok p) :
    getDecodedHeader msg "Subject" = Except.ok p.subject ∧
    getDecodedHeader msg "To" = Except.ok p.to_address ∧
    getDecodedHeader msg "Cc" = Except.ok p.cc_address ∧
    getDecodedHeader msg "From" = Except.ok p.from_address := by
  unfold mailParse at h
  cases hS : getDecodedHeader msg "Subject" with
  | error e => simp [hS] at h
  | ok sS =>
  simp only [hS] at h
  cases hT : getDecodedHeader msg "To" with
  | error e => simp [hT] at h
  | ok sT =>
  simp only [hT] at h
  cases hC : getDecodedHeader msg "Cc" with
  | error e => simp [hC] at h
  | ok sC =>
  simp only [hC] at h
  cases hF : getDecodedHeader msg "From" with
  | error e => simp [hF] at h
  | ok sF =>
  simp only [hF] at h
  cases hD : getDecodedHeader msg "Date" with
  | error e => simp [hD] at h
  | ok sD =>
  simp only [hD] at h
  cases hP : dateutilParseIso sD with
  | none => simp [hP] at h
  | some date =>
  simp only [hP] at h
  cases hW : partsFold (Part.walk msg.root) "" [] with
  | error e => simp [hW] at h
  | ok folded =>
  simp only [hW, Except.ok.injEq] at h
  subst h
  exact ⟨rfl, rfl, rfl, rfl⟩

/-- An absent header (no case-insensitive match among the message's
headers) decodes to the empty string without failing. -/
theorem getDecodedHeader_absent (msg : EmailMessage) (key : String)
    (h : msgGet msg key = none) : getDecodedHeader msg key = Except.ok "" := by
  simp [getDecodedHeader, h]

/-- C1 counterexample: on the concrete message with no Date header the
claim fails — construction does not produce a ParsedMessage with date
equal to the empty string; it fails with ParserError, because _parse
calls the date parser on the decoded (empty) Date header with no
exception handling. -/
theorem absent_date_aborts_construction :
    mailParse exMsgNoDate = Except.error (PyError.parserError "") := by decide

/-- C1 (amended): for every message whose address headers decode
successfully and whose decoded Date header string the date parser cannot
parse — in particular the empty string arising from an absent Date
header — construction fails with that ParserError; date is never set to
the empty string and the file's processing is aborted. -/
theorem unparseable_date_fails_construction (msg : EmailMessage)
    (sS sT sC sF ds : String)
    (hS : getDecodedHeader msg "Subject" = Except.ok sS)
    (hT : getDecodedHeader msg "To" = Except.ok sT)
    (hC : getDecodedHeader msg "Cc" = Except.ok sC)
    (hF : getDecodedHeader msg "From" = Except.ok sF)
    (hD : getDecodedHeader msg "Date" = Except.ok ds)
    (hP : dateutilParseIso ds = none) :
    mailParse msg = Except.error (PyError.parserError ds) := by
  unfold mailParse
  simp only [hS, hT, hC, hF, hD, hP]

/-- C1 witness: the amended theorem applied to the concrete message whose
Date header holds no recognizable date. -/
theorem unparseable_date_fails_construction_witness :
    mailParse exMsgBadDate = Except.error (PyError.parserError "not a date") :=
  unparseable_date_fails_construction exMsgBadDate "" "" "" "" "not a date"
    (by decide) (by decide) (by decide) (by decide) (by decide) (by decide)

/-- C2 counterexample: the claim fails for a character-set label that
names no registered codec — errors="replace" does not cover codec
lookup, so bytes.decode raises LookupError and the header decode
aborts. -/
theorem unknown_charset_label_raises :
    getDecodedHeader exMsgBadCharset "Subject" =
      Except.error (PyError.lookupError "invalid-charset-name") := by decide

/-- C2 (amended): for every header whose fragments all carry labels
naming registered codecs (or no label, defaulting to UTF-8) the decode
degrades to replacement and never raises; and at the byte level,
decoding under a registered codec is total while a label naming no
registered codec raises LookupError. -/
theorem registered_codec_decode_total :
    (∀ (msg : EmailMessage) (key : String) (frags : List Fragment),
      msgGet msg key = some frags → (∀ f ∈ frags, fragOkB f = true) →
      ∃ s, getDecodedHeader msg key = Except.ok s) ∧
    (∀ (charset : String) (data : List Byte) (c : Codec),
      codecLookup charset = some c →
      pyBytesDecodeReplace charset data = Except.ok (applyCodec c data)) ∧
    (∀ (charset : String) (data : List Byte),
      codecLookup charset = none →
      pyBytesDecodeReplace charset data =
        Except.error (PyError.lookupError charset)) := by
  refine ⟨?_, ?_, ?_⟩
  · intro msg key frags hg hok
    refine ⟨concatStrings (frags.map fragmentDecoded), ?_⟩
    simp only [getDecodedHeader, hg]
    rw [decodeFragments_ok frags hok ""]
    simp [String.empty_append]
  · intro charset data c hcl
    simp [pyBytesDecodeReplace, hcl]
  · intro charset data hcl
    simp [pyBytesDecodeReplace, hcl]

/-- C2 witness: the amended theorem applied to the three-fragment
subject, to an ASCII decode with an undecodable byte, and to an
unregistered label. -/
theorem registered_codec_decode_total_witness :
    (∃ s, getDecodedHeader exMsgFrag "Subject" = Except.ok s) ∧
    pyBytesDecodeReplace "ascii" [65, 255] =
      Except.ok (applyCodec Codec.ascii [65, 255]) ∧
    pyBytesDecodeReplace "x-unknown" [65] =
      Except.error (PyError.lookupError "x-unknown") :=
  ⟨registered_codec_decode_total.1 exMsgFrag "Subject"
      [Fragment.plain "He", Fragment.encoded [0x6C, 0x6C] none,
        Fragment.encoded [0xE9] (some "iso-8859-1")] (by decide) (by decide),
   registered_codec_decode_total.2.1 "ascii" [65, 255] Codec.ascii (by decide),
   registered_codec_decode_total.2.2 "x-unknown" [65] (by decide)⟩

/-- C3: the claim that a failure on one file does not prevent the
remaining files from being processed is contradicted by the code — the
try/except of dump2txt (v3.0.0) wraps the whole loop, so the batch stops
at the first failing file; here the second file is perfectly processable
(second conjunct) yet nothing is written for it (first conjunct). -/
theorem dump2txt_stops_batch_after_first_failure :
    dump2txt [("a.eml", exMsgNoDate), ("b.eml", exMsgDateOnly)] =
      DumpResult.failedAt [] "a.eml" (PyError.parserError "") ∧
    mailParse exMsgDateOnly =
      Except.ok ⟨"", "", "", "", "2024-01-02T03:04:05", "Hi", []⟩ := by decide

/-- C4: an absent header decodes to the empty string and never fails;
consequently, in every successfully constructed ParsedMessage, subject,
from_address, to_address and cc_address are empty when their header is
absent. -/
theorem absent_headers_decode_empty :
    (∀ (msg : EmailMessage) (key : String), msgGet msg key = none →
      getDecodedHeader msg key = Except.ok "") ∧
    (∀ (msg : EmailMessage) (p : ParsedMessage), mailParse msg = Except.ok p →
      (msgGet msg "Subject" = none → p.subject = "") ∧
      (msgGet msg "From" = none → p.from_address = "") ∧
      (msgGet msg "To" = none → p.to_address = "") ∧
      (msgGet msg "Cc" = none → p.cc_address = "")) := by
  refine ⟨fun msg key h => getDecodedHeader_absent msg key h, ?_⟩
  intro msg p hok
  obtain ⟨hS, hT, hC, hF⟩ := mailParse_ok_fields msg p hok
  refine ⟨?_, ?_, ?_, ?_⟩
  · intro habs
    have h2 := getDecodedHeader_absent msg "Subject" habs
    rw [hS] at h2
    exact Except.ok.inj h2
  · intro habs
    have h2 := getDecodedHeader_absent msg "From" habs
    rw [hF] at h2
    exact Except.ok.inj h2
  · intro habs
    have h2 := getDecodedHeader_absent msg "To" habs
    rw [hT] at h2
    exact Except.ok.inj h2
  · intro habs
    have h2 := getDecodedHeader_absent msg "Cc" habs
    rw [hC] at h2
    exact Except.ok.inj h2

/-- C4 witness: the theorem applied to a missing header of the
header-less message and to the subject of the message carrying only a
Date header. -/
theorem absent_headers_decode_empty_witness :
    getDecodedHeader exMsgNoDate "Subject" = Except.ok "" ∧
    (ParsedMessage.mk "" "" "" "" "2024-01-02T03:04:05" "Hi" []).subject = "" :=
  ⟨absent_headers_decode_empty.1 exMsgNoDate "Subject" (by decide),
   (absent_headers_decode_empty.2 exMsgDateOnly
      (ParsedMessage.mk "" "" "" "" "2024-01-02T03:04:05" "Hi" [])
      (by decide)).1 (by decide)⟩

/-- C5: a present header decodes to the separator-free ordered
concatenation of its decoded fragments, where a plain (untagged)
fragment is appended verbatim and a tagged fragment with an absent or
empty label is decoded as UTF-8. -/
theorem present_header_concatenates_fragments :
    ∀ (msg : EmailMessage) (key : String) (frags : List Fragment),
      msgGet msg key = some frags → (∀ f ∈ frags, fragOkB f = true) →
      getDecodedHeader msg key =
        Except.ok (concatStrings (frags.map fragmentDecoded)) ∧
      (∀ s, fragmentDecoded (Fragment.plain s) = s) ∧
      (∀ data, fragmentDecoded (Fragment.encoded data none) = utf8DecodeReplace data) ∧
      (∀ data, fragmentDecoded (Fragment.encoded data (some "")) =
        utf8DecodeReplace data) := by
  intro msg key frags hg hok
  refine ⟨?_, fun s => rfl, ?_, ?_⟩
  · simp only [getDecodedHeader, hg]
    rw [decodeFragments_ok frags hok ""]
    simp [String.empty_append]
  · intro data
    simp [fragmentDecoded, effectiveEncoding, applyCodec,
      show codecLookup "UTF-8" = some Codec.utf8 by decide]
  · intro data
    simp [fragmentDecoded, effectiveEncoding, applyCodec,
      show codecLookup "UTF-8" = some Codec.utf8 by decide]

/-- C5 witness: the theorem applied to the subject made of a single
empty-label fragment. -/
theorem present_header_concatenates_fragments_witness :
    getDecodedHeader exMsgEmptyLabel "Subject" =
      Except.ok (concatStrings
        ([Fragment.encoded [0x48, 0x69] (some "")].map fragmentDecoded)) ∧
    fragmentDecoded (Fragment.encoded [0x48, 0x69] (some "")) =
      utf8DecodeReplace [0x48, 0x69] :=
  ⟨(present_header_concatenates_fragments exMsgEmptyLabel "Subject"
      [Fragment.encoded [0x48, 0x69] (some "")] (by decide) (by decide)).1,
   (present_header_concatenates_fragments exMsgEmptyLabel "Subject"
      [Fragment.encoded [0x48, 0x69] (some "")] (by decide) (by decide)).2.2.2
      [0x48, 0x69]⟩

/-- C6 counterexample: a non-container part with a declared but empty
filename is not recorded as an attachment — Python truthiness sends it
down the body path, so its decoded payload lands in body and the
attachment list stays empty, contradicting the claim at this input. -/
theorem empty_filename_part_becomes_body :
    partsFold [⟨"text", some "utf-8", some "", [72, 105]⟩] "" [] =
      Except.ok ("Hi", []) ∧
    ("Hi", ([] : List Attachment)) ≠
      ("", ([⟨"", [72, 105]⟩] : List Attachment)) := by decide

/-- C6 (amended): the walk classifies each non-container part by
presence of a non-empty declared filename — a non-container part with a
non-empty filename is recorded as an attachment of its filename and
content-transfer-decoded payload bytes and contributes nothing to body,
a declared-but-empty filename is treated as absent, and a multipart part
is never itself a content source. -/
theorem part_classification_by_nonempty_filename :
    ∀ (body : String) (atts : List Attachment) (d : PartData),
      (d.maintype = "multipart" →
        partsFold [d] body atts = Except.ok (body, atts)) ∧
      (d.maintype ≠ "multipart" → ∀ s, d.filename = some s → s ≠ "" →
        partsFold [d] body atts =
          Except.ok (body, atts ++ [⟨s, d.payload⟩])) := by
  intro body atts d
  constructor
  · intro hm
    rw [partsFold_cons_multipart d [] body atts hm]
    rfl
  · intro hm s hs hne
    have hfal : pyFalsyStr d.filename = false := by
      simp only [pyFalsyStr, hs]
      simp [hne]
    rw [partsFold_cons_attach d [] body atts hm hfal, hs]
    simp [partsFold]

/-- C6 witness: the amended theorem applied to a concrete multipart
container and to a concrete attachment leaf. -/
theorem part_classification_by_nonempty_filename_witness :
    partsFold [⟨"multipart", none, none, []⟩] "" [] = Except.ok ("", []) ∧
    partsFold [exAttachPart] "B" [] =
      Except.ok ("B", [⟨"report.pdf", [1, 2]⟩]) :=
  ⟨(part_classification_by_nonempty_filename "" [] ⟨"multipart", none, none, []⟩).1 rfl,
   (part_classification_by_nonempty_filename "B" [] exAttachPart).2
      (by decide) "report.pdf" rfl (by decide)⟩

/-- C7: a leaf with no declared filename and no declared character set
contributes nothing to the fold — neither to body nor to the attachment
list — its payload is silently dropped. -/
theorem leaf_without_filename_and_charset_dropped :
    ∀ (ds : List PartData) (body : String) (atts : List Attachment) (d : PartData),
      d.maintype ≠ "multipart" → d.filename = none → d.charset = none →
      partsFold (d :: ds) body atts = partsFold ds body atts := by
  intro ds body atts d hm hf hc
  exact partsFold_cons_nocs d ds body atts hm (by simp [pyFalsyStr, hf]) hc

/-- C7 witness: the theorem applied to a concrete charset-less,
filename-less leaf. -/
theorem leaf_without_filename_and_charset_dropped_witness :
    partsFold [⟨"text", none, none, [1, 2, 3]⟩] "" [] = partsFold [] "" [] :=
  leaf_without_filename_and_charset_dropped [] "" []
    ⟨"text", none, none, [1, 2, 3]⟩ (by decide) rfl rfl

/-- C8: the walk visits each part of the tree exactly once, in the
deterministic depth-first document order in which Part.walk lists them;
whenever the fold over that order succeeds, body is the in-order
concatenation of the decoded text-leaf contributions and the attachment
list holds the attachment contributions in that same order. -/
theorem walk_order_determines_body_and_attachments :
    ∀ (root : Part) (b : String) (a : List Attachment),
      partsFold (Part.walk root) "" [] = Except.ok (b, a) →
      (Part.walk root).length = Part.size root ∧
      b = concatStrings ((Part.walk root).map bodyContrib) ∧
      a = (Part.walk root).filterMap attContrib := by
  intro root b a h
  obtain ⟨hb, ha⟩ := partsFold_inv (Part.walk root) "" [] b a h
  refine ⟨walk_length root, ?_, ?_⟩
  · rw [hb, String.empty_append]
  · rw [ha]; simp

/-- C8 witness: the theorem applied to the concrete two-leaf multipart
tree. -/
theorem walk_order_determines_body_and_attachments_witness :
    (Part.walk exTree).length = Part.size exTree ∧
    "Hi" = concatStrings ((Part.walk exTree).map bodyContrib) ∧
    [(⟨"report.pdf", [1, 2]⟩ : Attachment)] =
      (Part.walk exTree).filterMap attContrib :=
  walk_order_determines_body_and_attachments exTree "Hi"
    [⟨"report.pdf", [1, 2]⟩] (by decide)

/-- C9: sanitization removes every filesystem-invalid character from any
subject, the concrete subject My/Report:2024 sanitizes to MyReport2024,
and the per-file output name is built from the sanitized compacted date
and the sanitized subject. -/
theorem subject_sanitized_for_output_name :
    (∀ (s : String) (c : Char), c ∈ invalidFilenameChars → c ∉ (sanitize s).data) ∧
    sanitize "My/Report:2024" = "MyReport2024" ∧
    (∀ p : ParsedMessage,
      outFileName p =
        sanitize (removeHyphens (dropRight6 p.date)) ++ "_" ++
          sanitize p.subject ++ ".txt") := by
  refine ⟨?_, by decide, fun p => rfl⟩
  intro s c hc hmem
  have hm2 : c ∈ s.data.filter (fun c => decide (c ∉ invalidFilenameChars)) := hmem
  rw [List.mem_filter] at hm2
  exact (of_decide_eq_true hm2.2) hc

/-- C9 witness: the theorem applied to the slash character of the
concrete subject and to a concrete ParsedMessage. -/
theorem subject_sanitized_for_output_name_witness :
    ('/' ∉ (sanitize "My/Report:2024").data) ∧
    outFileName ⟨"My/Report:2024", "", "", "", "2024-01-02T03:04:05+09:00", "", []⟩ =
      sanitize (removeHyphens (dropRight6 "2024-01-02T03:04:05+09:00")) ++ "_" ++
        sanitize "My/Report:2024" ++ ".txt" :=
  ⟨subject_sanitized_for_output_name.1 "My/Report:2024" '/' (by decide),
   subject_sanitized_for_output_name.2.2
      ⟨"My/Report:2024", "", "", "", "2024-01-02T03:04:05+09:00", "", []⟩⟩

/-- C10 counterexample: construction is not a function of the input
bytes alone — dateutil completes a year-less Date header from the
current clock date, so two independent constructions of the same file at
clock years 2024 and 2025 produce different date fields and different
formatted reports, contradicting the unconditional determinism claim. -/
theorem clock_dependent_date_breaks_determinism :
    mailParseAt 2024 exMsgYearless ≠ mailParseAt 2025 exMsgYearless ∧
    Except.map get_attr_data (mailParseAt 2024 exMsgYearless) ≠
      Except.map get_attr_data (mailParseAt 2025 exMsgYearless) := by decide

/-- C10 (amended): construction is deterministic as a function of the
input content together with the construction-time clock date (the
hidden input dateutil consults for unspecified date components): two
constructions over equal content at the same clock date produce
identical field values and identical report text; and whenever the
decoded Date header parses identically at two clock dates — in
particular whenever it fully specifies its date — constructions at
those two times coincide, fields and report alike. -/
theorem construction_deterministic_with_clock :
    (∀ (todayYear : Nat) (m₁ m₂ : EmailMessage), m₁ = m₂ →
      mailParseAt todayYear m₁ = mailParseAt todayYear m₂ ∧
      Except.map get_attr_data (mailParseAt todayYear m₁) =
        Except.map get_attr_data (mailParseAt todayYear m₂)) ∧
    (∀ (y₁ y₂ : Nat) (msg : EmailMessage) (ds : String),
      getDecodedHeader msg "Date" = Except.ok ds →
      dateutilParseIsoAt y₁ ds = dateutilParseIsoAt y₂ ds →
      mailParseAt y₁ msg = mailParseAt y₂ msg ∧
      Except.map get_attr_data (mailParseAt y₁ msg) =
        Except.map get_attr_data (mailParseAt y₂ msg)) := by
  constructor
  · intro todayYear m₁ m₂ h
    subst h
    exact ⟨rfl, rfl⟩
  · intro y₁ y₂ msg ds hD heq
    have hmp : mailParseAt y₁ msg = mailParseAt y₂ msg := by
      simp only [mailParseAt, hD, heq]
    exact ⟨hmp, by rw [hmp]⟩

/-- C10 witness: the amended theorem applied to the date-only message —
same clock year, and the two distinct clock years across which its
fully specified Date header parses identically. -/
theorem construction_deterministic_with_clock_witness :
    mailParseAt 2024 exMsgDateOnly = mailParseAt 2024 exMsgDateOnly ∧
    mailParseAt 2024 exMsgDateOnly = mailParseAt 2025 exMsgDateOnly :=
  ⟨(construction_deterministic_with_clock.1 2024 exMsgDateOnly exMsgDateOnly rfl).1,
   (construction_deterministic_with_clock.2 2024 2025 exMsgDateOnly
      "2 Jan 2024 03:04:05" (by decide) (by decide)).1⟩

end Eml2Txt
